import Mathlib

/-!
# Verification of the `bf_traveler` chat handler

A shallow embedding, in Lean 4, of the request-handling pipeline in
`src/lambda/chat_handler/lambda_function.py` and of the advisory-fetch tool in
`src/lambda/chat_handler/tools.py`, together with proofs of the specified
properties.

Modelling conventions:
* Python strings are `List Char` (`Str` below); `str.strip` is modelled over the
  ASCII whitespace characters it removes.
* Python exceptions are the values of `PyExc`; fallible code runs in
  `Except PyExc`.
* `json.dumps` (default options: `ensure_ascii=True`, separators `", "` and
  `": "`) is `pyDumps`; `json.loads` is `pyLoads`, a parser for the fragment of
  JSON this program produces and consumes (objects, strings, integers, booleans,
  null).  The round-trip `pyLoads (pyDumps v) = some v` is proved below.
* External collaborators (the agent runtime, `base64.b64decode`, the HTTP
  transport, the HTML section finder) are fields of a `World`/`ToolWorld`
  record, so theorems quantify over every possible behaviour of them.
-/

/-- Python strings, as lists of Unicode scalar values. -/
abbrev Str := List Char

/-- The characters removed by Python's `str.strip()`: exactly those on
    which `str.isspace()` holds — `\t\n\x0b\x0c\r` (0x09–0x0d), the file
    separators and space (0x1c–0x20), next line (0x85), no-break space
    (0xa0), ogham space mark (0x1680), the en/em spaces (0x2000–0x200a),
    line and paragraph separators (0x2028, 0x2029), narrow no-break space
    (0x202f), medium mathematical space (0x205f), and ideographic space
    (0x3000). -/
def pyIsSpace (c : Char) : Bool :=
  decide ((9 ≤ c.toNat ∧ c.toNat ≤ 13) ∨ (28 ≤ c.toNat ∧ c.toNat ≤ 32) ∨
    c.toNat = 0x85 ∨ c.toNat = 0xa0 ∨ c.toNat = 0x1680 ∨
    (0x2000 ≤ c.toNat ∧ c.toNat ≤ 0x200a) ∨ c.toNat = 0x2028 ∨ c.toNat = 0x2029 ∨
    c.toNat = 0x202f ∨ c.toNat = 0x205f ∨ c.toNat = 0x3000)

/-- Python `str.strip()`: drop leading and trailing whitespace. -/
def pyStrip (s : Str) : Str :=
  ((s.dropWhile pyIsSpace).reverse.dropWhile pyIsSpace).reverse

/-- Python `str.lower()` (ASCII letters; sufficient for the URLs built here). -/
def pyLower (s : Str) : Str := s.map Char.toLower

/-! ## JSON values

The fragment of JSON that the chat handler produces and consumes: `null`,
booleans, integers, strings, and objects (association lists in insertion
order, as Python dicts).  `JMembers` is mutually inductive with `JVal` so
that structural induction over objects is available directly. -/

mutual

inductive JVal where
  | jnull
  | jbool (b : Bool)
  | jint (n : Int)
  | jstr (s : Str)
  | jobj (members : JMembers)

inductive JMembers where
  | jnil
  | jcons (key : Str) (val : JVal) (tail : JMembers)

end

deriving instance DecidableEq for JVal, JMembers

/-- Python `dict.get k` on the dict a member list denotes.  A repeated key
    overwrites its earlier binding when the dict is built (`json.loads`
    keeps the last occurrence in the object text), so lookup returns the
    last binding of `k`, if any. -/
def jGet : JMembers → Str → Option JVal
  | .jnil, _ => none
  | .jcons k v tl, key =>
    match jGet tl key with
    | some r => some r
    | none => if k = key then some v else none

/-- Key membership in a JSON object. -/
def jHasKey (ms : JMembers) (k : Str) : Bool := (jGet ms k).isSome

/-! ## `json.dumps` (default options) -/

/-- The decimal digit character for `d < 10`. -/
def decDig (d : Nat) : Char := Char.ofNat (48 + d)

/-- Decimal digits of `n`, most significant first; empty for `0`.
    Structural on a fuel argument so that it reduces definitionally;
    `fuel ≥ n` always suffices, since `n` has at most `n` digits. -/
def natDigsAux : Nat → Nat → List Char
  | 0, _ => []
  | fuel + 1, n =>
    if n = 0 then [] else natDigsAux fuel (n / 10) ++ [decDig (n % 10)]

/-- Decimal digits of `n`, most significant first; empty for `0`. -/
def natDigs (n : Nat) : List Char := natDigsAux n n

/-- Decimal digits of `n`, with `0` rendered as `"0"`. -/
def natChars (n : Nat) : List Char :=
  if n = 0 then ['0'] else natDigs n

/-- Python `repr` of an integer: optional minus sign, then decimal digits. -/
def intChars (n : Int) : List Char :=
  if n < 0 then '-' :: natChars n.natAbs else natChars n.toNat

/-- The lowercase hexadecimal digit character for `d < 16`. -/
def hexDig (d : Nat) : Char :=
  Char.ofNat (if d < 10 then 48 + d else 87 + d)

/-- Four lowercase hex digits of `n < 0x10000`, as in a `\uXXXX` escape. -/
def hexQuad (n : Nat) : List Char :=
  [hexDig (n / 4096 % 16), hexDig (n / 256 % 16), hexDig (n / 16 % 16), hexDig (n % 16)]

/-- One character of `json.dumps` output with `ensure_ascii=True`: the
    two-character shorthands, printable ASCII verbatim, and `\uXXXX`
    (a surrogate pair for astral characters) for everything else. -/
def escChar (c : Char) : List Char :=
  if c = '"' then ['\\', '"']
  else if c = '\\' then ['\\', '\\']
  else if c = '\n' then ['\\', 'n']
  else if c = '\r' then ['\\', 'r']
  else if c = '\t' then ['\\', 't']
  else if c = '\x08' then ['\\', 'b']
  else if c = '\x0c' then ['\\', 'f']
  else if 0x20 ≤ c.toNat ∧ c.toNat ≤ 0x7e then [c]
  else if c.toNat < 0x10000 then '\\' :: 'u' :: hexQuad c.toNat
  else
    ('\\' :: 'u' :: hexQuad (0xd800 + (c.toNat - 0x10000) / 0x400)) ++
    ('\\' :: 'u' :: hexQuad (0xdc00 + (c.toNat - 0x10000) % 0x400))

/-- A whole string body, JSON-escaped. -/
def escStr : Str → List Char
  | [] => []
  | c :: cs => escChar c ++ escStr cs

mutual

/-- `json.dumps` of a value, to characters. -/
def dumpVal : JVal → List Char
  | .jnull => 'n' :: 'u' :: 'l' :: 'l' :: []
  | .jbool true => 't' :: 'r' :: 'u' :: 'e' :: []
  | .jbool false => 'f' :: 'a' :: 'l' :: 's' :: 'e' :: []
  | .jint n => intChars n
  | .jstr s => '"' :: (escStr s ++ ['"'])
  | .jobj ms => '{' :: (dumpMembers ms ++ ['}'])

/-- The members of an object (`"key": value`, joined by the default `", "`
    separator). -/
def dumpMembers : JMembers → List Char
  | .jnil => []
  | .jcons k v tl =>
    '"' :: (escStr k ++ ('"' :: ':' :: ' ' :: (dumpVal v ++ dumpTail tl)))

/-- The `", "`-prefixed members after the first. -/
def dumpTail : JMembers → List Char
  | .jnil => []
  | .jcons k v tl =>
    ',' :: ' ' :: '"' :: (escStr k ++ ('"' :: ':' :: ' ' :: (dumpVal v ++ dumpTail tl)))

end

/-- One `"key": value` member on its own; `dumpMembers` and `dumpTail`
    emit exactly this shape (up to `List.append` associativity). -/
def dumpKV (k : Str) (v : JVal) : List Char :=
  '"' :: (escStr k ++ ('"' :: ':' :: ' ' :: dumpVal v))

/-- `json.dumps` with its default options, as used at
    `lambda_function.py:260`. -/
def pyDumps (v : JVal) : Str := dumpVal v

/-! ## `json.loads` (for the fragment above) -/

/-- Is `c` a decimal digit? -/
def decNib (c : Char) : Bool := 48 ≤ c.toNat && c.toNat ≤ 57

/-- Split a leading run of decimal digits from the rest. -/
def grabDigits : List Char → List Char × List Char
  | [] => ([], [])
  | c :: r => if decNib c then
      let p := grabDigits r
      (c :: p.1, p.2)
    else ([], c :: r)

/-- The value of a digit run, most significant first. -/
def digitsNum (ds : List Char) : Nat :=
  ds.foldl (fun a c => a * 10 + (c.toNat - 48)) 0

/-- The value of a hex digit character (either case), if it is one. -/
def hexNib (c : Char) : Option Nat :=
  if 48 ≤ c.toNat ∧ c.toNat ≤ 57 then some (c.toNat - 48)
  else if 97 ≤ c.toNat ∧ c.toNat ≤ 102 then some (c.toNat - 87)
  else if 65 ≤ c.toNat ∧ c.toNat ≤ 70 then some (c.toNat - 55)
  else none

/-- Read exactly four hex digits. -/
def readHex4 : List Char → Option (Nat × List Char)
  | a :: b :: c :: d :: r =>
    match hexNib a, hexNib b, hexNib c, hexNib d with
    | some va, some vb, some vc, some vd =>
      some (((va * 16 + vb) * 16 + vc) * 16 + vd, r)
    | _, _, _, _ => none
  | _ => none

/-- The character denoted by a two-character escape, if valid. -/
def unesc (e : Char) : Option Char :=
  if e = '"' then some '"'
  else if e = '\\' then some '\\'
  else if e = '/' then some '/'
  else if e = 'n' then some '\n'
  else if e = 'r' then some '\r'
  else if e = 't' then some '\t'
  else if e = 'b' then some '\x08'
  else if e = 'f' then some '\x0c'
  else none

/-- Scan a string body up to its closing quote, undoing escapes
    (including surrogate-pair `\uXXXX\uXXXX`). -/
def scanStr : Nat → List Char → Option (Str × List Char)
  | 0, _ => none
  | fuel + 1, s =>
    match s with
    | [] => none
    | c :: r =>
      if c = '"' then some ([], r)
      else if c = '\\' then
        match r with
        | [] => none
        | e :: r1 =>
          if e = 'u' then
            match readHex4 r1 with
            | none => none
            | some (n, r2) =>
              if 0xd800 ≤ n ∧ n < 0xdc00 then
                match r2 with
                | '\\' :: 'u' :: r3 =>
                  match readHex4 r3 with
                  | none => none
                  | some (m, r4) =>
                    if 0xdc00 ≤ m ∧ m < 0xe000 then
                      (scanStr fuel r4).map fun p =>
                        (Char.ofNat (0x10000 + (n - 0xd800) * 0x400 + (m - 0xdc00)) :: p.1, p.2)
                    else none
                | _ => none
              else if 0xdc00 ≤ n ∧ n < 0xe000 then none
              else (scanStr fuel r2).map fun p => (Char.ofNat n :: p.1, p.2)
          else
            match unesc e with
            | none => none
            | some ch => (scanStr fuel r1).map fun p => (ch :: p.1, p.2)
      else (scanStr fuel r).map fun p => (c :: p.1, p.2)

mutual

/-- Parse one JSON value of the supported fragment (strict: exactly the
    format `pyDumps` emits, which is what `json.loads` sees here). -/
def parseJ : Nat → List Char → Option (JVal × List Char)
  | 0, _ => none
  | fuel + 1, s =>
    match s with
    | [] => none
    | c :: r =>
      if decNib c then
        let p := grabDigits (c :: r)
        some (.jint (digitsNum p.1), p.2)
      else if c = '-' then
        let p := grabDigits r
        if p.1 = [] then none else some (.jint (-(digitsNum p.1 : Int)), p.2)
      else if c = 'n' then
        match r with
        | 'u' :: 'l' :: 'l' :: r2 => some (.jnull, r2)
        | _ => none
      else if c = 't' then
        match r with
        | 'r' :: 'u' :: 'e' :: r2 => some (.jbool true, r2)
        | _ => none
      else if c = 'f' then
        match r with
        | 'a' :: 'l' :: 's' :: 'e' :: r2 => some (.jbool false, r2)
        | _ => none
      else if c = '"' then
        (scanStr fuel r).map fun p => (.jstr p.1, p.2)
      else if c = '{' then
        match r with
        | '}' :: r2 => some (.jobj .jnil, r2)
        | _ => (parseM fuel r).map fun p => (.jobj p.1, p.2)
      else none
termination_by structural fuel _ => fuel

/-- Parse the members of a nonempty object, up to and including `}`. -/
def parseM : Nat → List Char → Option (JMembers × List Char)
  | 0, _ => none
  | fuel + 1, s =>
    match s with
    | '"' :: r =>
      match scanStr fuel r with
      | none => none
      | some (k, r1) =>
        match r1 with
        | ':' :: ' ' :: r2 =>
          match parseJ fuel r2 with
          | none => none
          | some (v, r3) =>
            match r3 with
            | '}' :: r4 => some (.jcons k v .jnil, r4)
            | ',' :: ' ' :: r4 => (parseM fuel r4).map fun p => (.jcons k v p.1, p.2)
            | _ => none
        | _ => none
    | _ => none
termination_by structural fuel _ => fuel

end

/-- `json.loads`, for the fragment this program serializes: the whole input
    must be consumed.  An object's bindings are kept in textual order;
    `json.loads` itself builds a dict in which a repeated key keeps its last
    occurrence, which is what the last-binding lookup `jGet` reads off this
    list, so every downstream dict observation agrees with Python. -/
def pyLoads (s : Str) : Option JVal :=
  match parseJ (s.length + 1) s with
  | some (v, []) => some v
  | _ => none

/-- Does this input not start with a decimal digit?  (The condition under
    which a parse position cannot extend a preceding number.) -/
def noDigitHead : List Char → Bool
  | [] => true
  | c :: _ => !decNib c

mutual

/-- Fuel sufficient for `parseJ` to parse `dumpVal v`. -/
def jvalFuel : JVal → Nat
  | .jnull => 1
  | .jbool _ => 1
  | .jint _ => 1
  | .jstr s => s.length + 2
  | .jobj ms => 1 + jmemFuel ms

/-- Fuel sufficient for `parseM` to parse `dumpMembers ms`. -/
def jmemFuel : JMembers → Nat
  | .jnil => 0
  | .jcons k v tl => 2 + k.length + jvalFuel v + jmemFuel tl

end

/-! ## The chat handler (`src/lambda/chat_handler/lambda_function.py`) -/

/-- Python exceptions, as far as this program classifies them: its only
    `except` clauses are `except ValueError` and `except Exception`
    (`lambda_function.py:64` and `:68`), so the model distinguishes
    `ValueError` from everything else. -/
inductive PyExc where
  | valueError (msg : Str)
  | attributeError (msg : Str)
  | otherError (msg : Str)
deriving DecidableEq

/-- Does `except ValueError` catch this exception? -/
def isValueError : PyExc → Bool
  | .valueError _ => true
  | _ => false

/-- The `requestContext.authorizer` object: possibly missing Cognito claims. -/
structure Authorizer where
  claims : Option (List (Str × Str))

/-- The `requestContext` object: possibly missing the authorizer. -/
structure RequestContext where
  authorizer : Option Authorizer

/-- An API Gateway event, restricted to the fields the handler reads:
    `body` (a string, or absent), `isBase64Encoded` (absent modelled as
    `false`, its `event.get` default), and the `requestContext` chain. -/
structure Event where
  body : Option Str
  isBase64Encoded : Bool
  requestContext : Option RequestContext

/-- The dict built by `extract_user_info` (`lambda_function.py:85`). -/
structure UserInfo where
  username : Str
  email : Str
  sub : Str
deriving DecidableEq

/-- `dict.get` on a claims mapping: first binding of the key, if any. -/
def lookupClaim (claims : List (Str × Str)) (k : Str) : Option Str :=
  (claims.find? fun p => p.1 = k).map fun p => p.2

/-- The external collaborators of one request: the opaque agent capability
    (which may raise), `base64.b64decode` (stdlib, may raise), the clock, and
    the detail text a JSON decode error would carry.  Theorems quantify over
    all of these. -/
structure World where
  agent : Str → Except PyExc Str
  b64decode : Str → Except PyExc Str
  now : Int
  jsonErrDetail : Str

/-- `extract_user_info` (`lambda_function.py:75`): each missing layer falls
    back to `{}` via `dict.get`, and each missing claim to its default. -/
def extract_user_info (event : Event) : UserInfo :=
  let request_context := event.requestContext.getD ⟨none⟩
  let authorizer := request_context.authorizer.getD ⟨none⟩
  let claims := authorizer.claims.getD []
  { username := (lookupClaim claims "cognito:username".data).getD "Unknown".data
    email := (lookupClaim claims "email".data).getD "unknown@example.com".data
    sub := (lookupClaim claims "sub".data).getD "unknown-sub".data }

/-- `parse_request_body` (`lambda_function.py:95`): default the body to
    `"{}"`, base64-decode it when flagged, and re-raise a JSON decode
    failure as `ValueError`. -/
def parse_request_body (w : World) (event : Event) : Except PyExc JVal :=
  let body := event.body.getD "{}".data
  match (if event.isBase64Encoded then w.b64decode body else .ok body) with
  | .error e => .error e
  | .ok decoded =>
    match pyLoads decoded with
    | some parsed => .ok parsed
    | none => .error (.valueError ("Invalid JSON in request body: ".data ++ w.jsonErrDetail))

/-- `validate_message` (`lambda_function.py:112`): `body.get("message", "")`
    then `.strip()`.  A non-dict body or a non-string message raises
    `AttributeError` (no `.get` / no `.strip`). -/
def validate_message (body : JVal) : Except PyExc Str :=
  match body with
  | .jobj ms =>
    match (jGet ms "message".data).getD (.jstr []) with
    | .jstr s =>
      let message := pyStrip s
      if message = [] then
        .error (.valueError "Message cannot be empty".data)
      else if message.length > 1000 then
        .error (.valueError "Message too long (max 1000 characters)".data)
      else
        .ok message
    | _ => .error (.attributeError "object has no attribute strip".data)
  | _ => .error (.attributeError "object has no attribute get".data)

/-- An API Gateway response envelope. -/
structure Response where
  statusCode : Int
  headers : List (Str × Str)
  body : Str
deriving DecidableEq

/-- The fixed CORS header set attached by `create_response`
    (`lambda_function.py:254`). -/
def cors_headers : List (Str × Str) :=
  [("Content-Type".data, "application/json".data),
   ("Access-Control-Allow-Origin".data, "*".data),
   ("Access-Control-Allow-Headers".data,
    "Content-Type,X-Amz-Date,Authorization,X-Api-Key,X-Amz-Security-Token".data),
   ("Access-Control-Allow-Methods".data, "POST,OPTIONS".data)]

/-- `create_response` (`lambda_function.py:249`). -/
def create_response (status_code : Int) (body : JVal) : Response :=
  { statusCode := status_code
    headers := cors_headers
    body := pyDumps body }

/-- The success payload built at `lambda_function.py:56`. -/
def success_payload (message : Str) (now : Int) (username : Str) : JVal :=
  .jobj (.jcons "success".data (.jbool true)
        (.jcons "message".data (.jstr message)
        (.jcons "timestamp".data (.jint now)
        (.jcons "user".data (.jstr username) .jnil))))

/-- The failure payload `{"success": False, "error": e}` built at
    `lambda_function.py:66` and `:71`. -/
def failure_payload (err : Str) : JVal :=
  .jobj (.jcons "success".data (.jbool false)
        (.jcons "error".data (.jstr err) .jnil))

/-- The `try` block of `lambda_handler` (`lambda_function.py:37`):
    extract identity, parse, validate, invoke the agent, and build the
    success payload; any step's exception propagates to the `except`
    clauses. -/
def handler_try (w : World) (event : Event) : Except PyExc (Int × JVal) :=
  let user_info := extract_user_info event
  match parse_request_body w event with
  | .error e => .error e
  | .ok body =>
    match validate_message body with
    | .error e => .error e
    | .ok message =>
      match w.agent message with
      | .error e => .error e
      | .ok response_message =>
        .ok (200, success_payload response_message w.now user_info.username)

/-- `lambda_handler` (`lambda_function.py:25`): the result is `.ok` exactly
    when the Python function returns rather than raising; `except ValueError`
    yields a 400 with the error text, `except Exception` a generic 500. -/
def lambda_handler (w : World) (event : Event) : Except PyExc Response :=
  match handler_try w event with
  | .ok (code, payload) => .ok (create_response code payload)
  | .error (.valueError msg) => .ok (create_response 400 (failure_payload msg))
  | .error _ =>
    .ok (create_response 500 (failure_payload "Internal server error".data))

/-! ## The advisory tool (`src/lambda/chat_handler/tools.py`) -/

/-- An HTTP response as `requests` exposes it to this code. -/
structure HttpResponse where
  status : Nat
  text : Str
deriving DecidableEq

/-- The tool's external collaborators: the HTTP transport (`requests.get`,
    which either raises a `RequestException` carrying a message or returns a
    response) and the HTML lookup (`BeautifulSoup`'s
    `find("div", id="securite")` composed with `get_text`, returning the
    section's text when the `div` exists). -/
structure ToolWorld where
  httpGet : Str → Except Str HttpResponse
  findSecurite : Str → Option Str

/-- The fixed base URL at `tools.py:21`. -/
def tool_base_url : Str :=
  "https://www.diplomatie.gouv.fr/fr/conseils-aux-voyageurs/conseils-par-pays-destination/".data

/-- `get_country_info` (`tools.py:11`): build the URL, issue the GET inside
    `try`; `raise_for_status` raises (and the `except` returns `None`) for
    status codes in `[400, 600)`; otherwise look up the security section and
    return its text, or `None` when absent.  Every path returns normally. -/
def get_country_info (w : ToolWorld) (country_name_in_french : Str) : Option Str :=
  let full_url := tool_base_url ++ pyLower country_name_in_french
  match w.httpGet full_url with
  | .error _ => none
  | .ok response =>
    if 400 ≤ response.status ∧ response.status < 600 then none
    else
      match w.findSecurite response.text with
      | some security_text => some security_text
      | none => none

/-! ## Derived values and concrete instances used by the claims -/

/-- The response the handler sends on any unclassified failure
    (`lambda_function.py:70`): status 500, `error` exactly
    `"Internal server error"`. -/
def internal_error_response : Response :=
  create_response 500 (failure_payload "Internal server error".data)

/-- The response the handler sends for an empty message
    (`lambda_function.py:66` with the `ValueError` of
    `lambda_function.py:118`). -/
def empty_message_response : Response :=
  create_response 400 (failure_payload "Message cannot be empty".data)

/-- The ChatResponse body invariant of the spec: a boolean `success` field;
    `message` present iff `success` (and then `timestamp` and `user` too);
    `error` present iff failure. -/
def chatBodyInvariant (p : JVal) : Prop :=
  ∃ ms b, p = .jobj ms ∧
    jGet ms "success".data = some (.jbool b) ∧
    jHasKey ms "message".data = b ∧
    jHasKey ms "error".data = !b ∧
    (b = true → jHasKey ms "timestamp".data = true ∧ jHasKey ms "user".data = true)

/-- The claims mapping reachable through
    `requestContext.authorizer.claims`, when every layer is present. -/
def event_claims (event : Event) : Option (List (Str × Str)) :=
  match event.requestContext with
  | none => none
  | some rc =>
    match rc.authorizer with
    | none => none
    | some a => a.claims

/-- The documented identity defaults. -/
def default_user_info : UserInfo :=
  { username := "Unknown".data
    email := "unknown@example.com".data
    sub := "unknown-sub".data }

/-- A benign world: the agent replies, decoding is the identity, a fixed
    clock. -/
def stubWorld : World :=
  { agent := fun _ => .ok "reply".data
    b64decode := fun s => .ok s
    now := 7
    jsonErrDetail := [] }

/-- A world whose agent capability raises an unclassified exception. -/
def crashWorld : World :=
  { stubWorld with agent := fun _ => .error (.otherError "boom".data) }

/-- An event with no `body` key at all. -/
def noBodyEvent : Event :=
  { body := none, isBase64Encoded := false, requestContext := none }

/-- An event whose body is the serialized object `{"message": m}`. -/
def msgEvent (m : Str) : Event :=
  { body := some (pyDumps (.jobj (.jcons "message".data (.jstr m) .jnil)))
    isBase64Encoded := false
    requestContext := none }

/-- An event whose body is `{"message": 5}` (a non-string message). -/
def intMsgEvent : Event :=
  { body := some (pyDumps (.jobj (.jcons "message".data (.jint 5) .jnil)))
    isBase64Encoded := false
    requestContext := none }

/-- A concrete claims mapping carrying only a username. -/
def demoClaims : List (Str × Str) :=
  [("cognito:username".data, "alice".data)]

/-- An event whose authorizer carries `demoClaims`. -/
def claimsEvent : Event :=
  { body := none
    isBase64Encoded := false
    requestContext := some ⟨some ⟨some demoClaims⟩⟩ }

/-- A tool world whose transport raises a `RequestException`. -/
def toolFailWorld : ToolWorld :=
  { httpGet := fun _ => .error "connection error".data
    findSecurite := fun _ => none }

/-- A tool world whose transport succeeds (200) on a page that has no
    security section. -/
def toolNoSectionWorld : ToolWorld :=
  { httpGet := fun _ => .ok ⟨200, "page".data⟩
    findSecurite := fun _ => none }

/-! ## Round-trip: `pyLoads (pyDumps v) = some v`

The serializer above is `json.dumps` with its defaults, and `pyLoads` the
fragment of `json.loads` this program exercises; the lemmas below prove the
parser inverts the serializer on every value, which claims C3, C4, C7, C8,
C9 and C10 rely on to move between handler payloads and serialized
bodies. -/

/-- A character's scalar value is never a surrogate and is below `0x110000`. -/
theorem char_toNat_valid (c : Char) :
    c.toNat < 0xd800 ∨ (0xdfff < c.toNat ∧ c.toNat < 0x110000) := c.valid

/-- `hexNib` inverts `hexDig` on nibble values. -/
theorem hexNib_hexDig : ∀ d : Nat, d < 16 → hexNib (hexDig d) = some d := by decide

/-- Each component of `hexQuad` is a nibble value. -/
theorem readHex4_hexQuad (n : Nat) (hn : n < 0x10000) (rest : List Char) :
    readHex4 (hexQuad n ++ rest) = some (n, rest) := by
  have h1 : n / 4096 % 16 < 16 := Nat.mod_lt _ (by omega)
  have h2 : n / 256 % 16 < 16 := Nat.mod_lt _ (by omega)
  have h3 : n / 16 % 16 < 16 := Nat.mod_lt _ (by omega)
  have h4 : n % 16 < 16 := Nat.mod_lt _ (by omega)
  simp only [hexQuad, List.cons_append, List.nil_append, readHex4,
    hexNib_hexDig _ h1, hexNib_hexDig _ h2, hexNib_hexDig _ h3, hexNib_hexDig _ h4]
  congr 1
  congr 1
  omega

/-- One definitional step of `scanStr` on a `\u` escape. -/
theorem scanStr_u (fuel : Nat) (t : List Char) :
    scanStr (fuel + 1) ('\\' :: 'u' :: t)
      = match readHex4 t with
        | none => none
        | some (n, r2) =>
          if 0xd800 ≤ n ∧ n < 0xdc00 then
            match r2 with
            | '\\' :: 'u' :: r3 =>
              match readHex4 r3 with
              | none => none
              | some (m, r4) =>
                if 0xdc00 ≤ m ∧ m < 0xe000 then
                  (scanStr fuel r4).map fun p =>
                    (Char.ofNat (0x10000 + (n - 0xd800) * 0x400 + (m - 0xdc00)) :: p.1, p.2)
                else none
            | _ => none
          else if 0xdc00 ≤ n ∧ n < 0xe000 then none
          else (scanStr fuel r2).map fun p => (Char.ofNat n :: p.1, p.2) := rfl

/-- Scanning one escaped character undoes `escChar`. -/
theorem scanStr_escChar (c : Char) (fuel : Nat) (rest : List Char) :
    scanStr (fuel + 1) (escChar c ++ rest)
      = (scanStr fuel rest).map fun p => (c :: p.1, p.2) := by
  by_cases h1 : c = '"'
  · subst h1; rfl
  by_cases h2 : c = '\\'
  · subst h2; rfl
  by_cases h3 : c = '\n'
  · subst h3; rfl
  by_cases h4 : c = '\r'
  · subst h4; rfl
  by_cases h5 : c = '\t'
  · subst h5; rfl
  by_cases h6 : c = '\x08'
  · subst h6; rfl
  by_cases h7 : c = '\x0c'
  · subst h7; rfl
  by_cases h8 : 0x20 ≤ c.toNat ∧ c.toNat ≤ 0x7e
  · rw [show escChar c = [c] by
      simp only [escChar, if_neg h1, if_neg h2, if_neg h3, if_neg h4, if_neg h5,
        if_neg h6, if_neg h7, if_pos h8]]
    simp only [List.cons_append, List.nil_append, scanStr, if_neg h1, if_neg h2]
  by_cases h9 : c.toNat < 0x10000
  · rw [show escChar c = '\\' :: 'u' :: hexQuad c.toNat by
      simp only [escChar, if_neg h1, if_neg h2, if_neg h3, if_neg h4, if_neg h5,
        if_neg h6, if_neg h7, if_neg h8, if_pos h9]]
    have hval := char_toNat_valid c
    have hns1 : ¬(0xd800 ≤ c.toNat ∧ c.toNat < 0xdc00) := by omega
    have hns2 : ¬(0xdc00 ≤ c.toNat ∧ c.toNat < 0xe000) := by omega
    simp only [List.cons_append, List.append_assoc]
    rw [scanStr_u, readHex4_hexQuad c.toNat h9 rest]
    simp only [if_neg hns1, if_neg hns2, Char.ofNat_toNat]
  · have hval := char_toNat_valid c
    have h10 : 0x10000 ≤ c.toNat := by omega
    rw [show escChar c
        = ('\\' :: 'u' :: hexQuad (0xd800 + (c.toNat - 0x10000) / 0x400)) ++
          ('\\' :: 'u' :: hexQuad (0xdc00 + (c.toNat - 0x10000) % 0x400)) by
      simp only [escChar, if_neg h1, if_neg h2, if_neg h3, if_neg h4, if_neg h5,
        if_neg h6, if_neg h7, if_neg h8, if_neg h9]]
    have hhi : 0xd800 + (c.toNat - 0x10000) / 0x400 < 0x10000 := by omega
    have hlo : 0xdc00 + (c.toNat - 0x10000) % 0x400 < 0x10000 := by
      have := Nat.mod_lt (c.toNat - 0x10000) (show 0 < 0x400 by omega)
      omega
    have hhi2 : 0xd800 ≤ 0xd800 + (c.toNat - 0x10000) / 0x400 ∧
        0xd800 + (c.toNat - 0x10000) / 0x400 < 0xdc00 := by omega
    have hlo2 : 0xdc00 ≤ 0xdc00 + (c.toNat - 0x10000) % 0x400 ∧
        0xdc00 + (c.toNat - 0x10000) % 0x400 < 0xe000 := by
      have := Nat.mod_lt (c.toNat - 0x10000) (show 0 < 0x400 by omega)
      omega
    have harith : 0x10000 + (0xd800 + (c.toNat - 0x10000) / 0x400 - 0xd800) * 0x400 +
        (0xdc00 + (c.toNat - 0x10000) % 0x400 - 0xdc00) = c.toNat := by omega
    simp only [List.cons_append, List.append_assoc]
    rw [scanStr_u, readHex4_hexQuad _ hhi]
    simp only [if_pos hhi2, readHex4_hexQuad _ hlo, if_pos hlo2, harith, Char.ofNat_toNat]

/-- Scanning an escaped string body stops exactly at the closing quote. -/
theorem scanStr_escStr (s : Str) : ∀ (fuel : Nat) (rest : List Char),
    s.length + 1 ≤ fuel →
    scanStr fuel (escStr s ++ '"' :: rest) = some (s, rest) := by
  induction s with
  | nil =>
    intro fuel rest hf
    match fuel, hf with
    | f + 1, _ => rfl
  | cons c cs ih =>
    intro fuel rest hf
    match fuel, hf with
    | f + 1, hf =>
      have : escStr (c :: cs) ++ '"' :: rest = escChar c ++ (escStr cs ++ '"' :: rest) := by
        simp [escStr]
      rw [this, scanStr_escChar, ih f rest (by simpa using Nat.lt_succ_iff.mp hf)]
      rfl

/-- The decimal digit characters are digits. -/
theorem decDig_digit : ∀ d : Nat, d < 10 → decNib (decDig d) = true := by decide

/-- The scalar value of a decimal digit character. -/
theorem decDig_toNat : ∀ d : Nat, d < 10 → (decDig d).toNat = 48 + d := by decide

/-- With enough fuel, every character `natDigsAux` emits is a digit. -/
theorem natDigsAux_all_digits : ∀ (fuel n : Nat), n ≤ fuel →
    ∀ c ∈ natDigsAux fuel n, decNib c = true := by
  intro fuel
  induction fuel with
  | zero =>
    intro n hn c hc
    interval_cases n
    simp [natDigsAux] at hc
  | succ f ih =>
    intro n hn c hc
    by_cases h0 : n = 0
    · subst h0; simp [natDigsAux] at hc
    · rw [natDigsAux, if_neg h0] at hc
      rcases List.mem_append.mp hc with h | h
      · exact ih (n / 10) (by omega) c h
      · rw [List.mem_singleton.mp h]
        exact decDig_digit _ (Nat.mod_lt _ (by omega))

/-- With enough fuel, `natDigsAux` is nonempty on a positive argument. -/
theorem natDigsAux_ne_nil (fuel n : Nat) (h0 : n ≠ 0) (hn : n ≤ fuel) :
    natDigsAux fuel n ≠ [] := by
  cases fuel with
  | zero => omega
  | succ f =>
    rw [natDigsAux, if_neg h0]
    simp

/-- Folding the digit values over `natDigsAux fuel n` recovers `n`
    (shifted past an accumulated prefix). -/
theorem natDigsAux_val : ∀ (fuel n a : Nat), n ≤ fuel →
    (natDigsAux fuel n).foldl (fun a c => a * 10 + (c.toNat - 48)) a
      = a * 10 ^ (natDigsAux fuel n).length + n := by
  intro fuel
  induction fuel with
  | zero =>
    intro n a hn
    interval_cases n
    simp [natDigsAux]
  | succ f ih =>
    intro n a hn
    by_cases h0 : n = 0
    · subst h0; simp [natDigsAux]
    · rw [natDigsAux, if_neg h0, List.foldl_append, ih (n / 10) a (by omega)]
      rw [List.length_append, List.length_singleton]
      simp only [List.foldl_cons, List.foldl_nil]
      rw [decDig_toNat _ (Nat.mod_lt _ (by omega))]
      have hsub : 48 + n % 10 - 48 = n % 10 := by omega
      rw [hsub]
      calc (a * 10 ^ (natDigsAux f (n / 10)).length + n / 10) * 10 + n % 10
          = a * 10 ^ ((natDigsAux f (n / 10)).length + 1) + (10 * (n / 10) + n % 10) := by
            ring
        _ = a * 10 ^ ((natDigsAux f (n / 10)).length + 1) + n := by
            rw [Nat.div_add_mod]

/-- Every character of `natChars n` is a digit. -/
theorem natChars_all_digits (n : Nat) : ∀ c ∈ natChars n, decNib c = true := by
  intro c hc
  by_cases h0 : n = 0
  · subst h0
    simp [natChars] at hc
    subst hc; decide
  · rw [natChars, if_neg h0] at hc
    exact natDigsAux_all_digits n n le_rfl c hc

/-- `natChars n` is never empty. -/
theorem natChars_ne_nil (n : Nat) : natChars n ≠ [] := by
  by_cases h0 : n = 0
  · subst h0; simp [natChars]
  · rw [natChars, if_neg h0]
    exact natDigsAux_ne_nil n n h0 le_rfl

/-- The digit run of `n` evaluates back to `n`. -/
theorem digitsNum_natChars (n : Nat) : digitsNum (natChars n) = n := by
  by_cases h0 : n = 0
  · subst h0; decide
  · rw [natChars, if_neg h0, digitsNum, natDigs, natDigsAux_val n n 0 le_rfl]
    simp

/-- `grabDigits` splits a digit run from a non-digit continuation. -/
theorem grabDigits_append : ∀ (ds rest : List Char),
    (∀ c ∈ ds, decNib c = true) → noDigitHead rest = true →
    grabDigits (ds ++ rest) = (ds, rest) := by
  intro ds
  induction ds with
  | nil =>
    intro rest _ hr
    cases rest with
    | nil => rfl
    | cons c t =>
      simp only [noDigitHead, Bool.not_eq_true'] at hr
      simp [grabDigits, hr]
  | cons d ds ih =>
    intro rest hds hr
    have hd : decNib d = true := hds d (by simp)
    simp only [List.cons_append, grabDigits, hd, if_pos, List.append_eq]
    rw [ih rest (fun c hc => hds c (by simp [hc])) hr]

/-- `parseJ` on a digit-headed input consumes the digit run as an integer. -/
theorem parseJ_digit (fuel : Nat) (c : Char) (t : List Char) (hc : decNib c = true) :
    parseJ (fuel + 1) (c :: t)
      = some (.jint (digitsNum (grabDigits (c :: t)).1), (grabDigits (c :: t)).2) := by
  simp only [parseJ, hc, if_pos]

/-- `parseJ` on a minus-headed input parses a negative integer. -/
theorem parseJ_neg (fuel : Nat) (t : List Char) :
    parseJ (fuel + 1) ('-' :: t)
      = (if (grabDigits t).1 = [] then none
         else some (.jint (-(digitsNum (grabDigits t).1 : Int)), (grabDigits t).2)) := rfl

/-- `parseJ` inverts `intChars` whenever the continuation cannot extend the
    number. -/
theorem parseJ_intChars (n : Int) (fuel : Nat) (rest : List Char)
    (hr : noDigitHead rest = true) :
    parseJ (fuel + 1) (intChars n ++ rest) = some (.jint n, rest) := by
  by_cases hn : n < 0
  · rw [intChars, if_pos hn, List.cons_append, parseJ_neg,
      grabDigits_append _ _ (natChars_all_digits _) hr]
    rw [if_neg (by simp [natChars_ne_nil n.natAbs]), digitsNum_natChars]
    have hval : -((n.natAbs : Nat) : Int) = n := by omega
    rw [hval]
  · rw [intChars, if_neg hn]
    obtain ⟨c0, t0, h0⟩ : ∃ c0 t0, natChars n.toNat = c0 :: t0 := by
      cases h : natChars n.toNat with
      | nil => exact absurd h (natChars_ne_nil _)
      | cons c0 t0 => exact ⟨c0, t0, rfl⟩
    have hc0 : decNib c0 = true := natChars_all_digits n.toNat c0 (by rw [h0]; simp)
    rw [h0, List.cons_append, parseJ_digit fuel c0 (t0 ++ rest) hc0, ← List.cons_append, ← h0,
      grabDigits_append _ _ (natChars_all_digits _) hr, digitsNum_natChars]
    have hval : ((n.toNat : Nat) : Int) = n := Int.toNat_of_nonneg (by omega)
    rw [hval]

/-- `parseJ` on a quote-headed input defers to `scanStr`. -/
theorem parseJ_quote (fuel : Nat) (t : List Char) :
    parseJ (fuel + 1) ('"' :: t)
      = (scanStr fuel t).map fun p => (.jstr p.1, p.2) := rfl

/-- `parseJ` on `{` followed by a key defers to `parseM`. -/
theorem parseJ_brace_quote (fuel : Nat) (t : List Char) :
    parseJ (fuel + 1) ('{' :: '"' :: t)
      = (parseM fuel ('"' :: t)).map fun p => (.jobj p.1, p.2) := rfl

/-- One step of `parseM`, once the key has been scanned and found to be
    followed by the `": "` separator. -/
theorem parseM_key_colon (fuel : Nat) (r r2 : List Char) (k : Str)
    (hscan : scanStr fuel r = some (k, ':' :: ' ' :: r2)) :
    parseM (fuel + 1) ('"' :: r)
      = (match parseJ fuel r2 with
         | none => none
         | some (v, r3) =>
           match r3 with
           | '}' :: r4 => some (.jcons k v .jnil, r4)
           | ',' :: ' ' :: r4 => (parseM fuel r4).map fun p => (.jcons k v p.1, p.2)
           | _ => none) := by
  simp only [parseM, hscan]

/-- Every value needs at least one unit of fuel. -/
theorem jvalFuel_pos (v : JVal) : 1 ≤ jvalFuel v := by
  cases v <;> simp [jvalFuel]

/-- What follows a value inside an object can never extend a number. -/
theorem noDigitHead_dumpTail (tl : JMembers) (rest : List Char) :
    noDigitHead (dumpTail tl ++ '}' :: rest) = true := by
  cases tl <;> rfl

mutual

/-- `parseJ` inverts `dumpVal`, given enough fuel and a continuation that
    cannot extend a number. -/
theorem parseJ_dumpVal : ∀ (v : JVal) (fuel : Nat) (rest : List Char),
    jvalFuel v ≤ fuel → noDigitHead rest = true →
    parseJ fuel (dumpVal v ++ rest) = some (v, rest)
  | .jnull, fuel, rest, hf, _ => by
    cases fuel with
    | zero => simp [jvalFuel] at hf
    | succ f => rfl
  | .jbool true, fuel, rest, hf, _ => by
    cases fuel with
    | zero => simp [jvalFuel] at hf
    | succ f => rfl
  | .jbool false, fuel, rest, hf, _ => by
    cases fuel with
    | zero => simp [jvalFuel] at hf
    | succ f => rfl
  | .jint n, fuel, rest, hf, hr => by
    cases fuel with
    | zero => simp [jvalFuel] at hf
    | succ f => exact parseJ_intChars n f rest hr
  | .jstr s, fuel, rest, hf, _ => by
    cases fuel with
    | zero => simp [jvalFuel] at hf
    | succ f =>
      simp only [jvalFuel] at hf
      have h1 : dumpVal (.jstr s) ++ rest = '"' :: (escStr s ++ '"' :: rest) := by
        simp [dumpVal]
      rw [h1, parseJ_quote, scanStr_escStr s f rest (by omega)]
      rfl
  | .jobj .jnil, fuel, rest, hf, _ => by
    cases fuel with
    | zero => simp [jvalFuel, jmemFuel] at hf
    | succ f => rfl
  | .jobj (.jcons k v tl), fuel, rest, hf, _ => by
    cases fuel with
    | zero =>
      have := jvalFuel_pos v
      simp only [jvalFuel, jmemFuel] at hf
      omega
    | succ f =>
      have h1 : dumpVal (.jobj (.jcons k v tl)) ++ rest
          = '{' :: '"' :: (escStr k ++ ('"' :: ':' :: ' ' :: (dumpVal v ++ dumpTail tl))
              ++ '}' :: rest) := by
        simp [dumpVal, dumpMembers]
      have h2 : dumpMembers (.jcons k v tl) ++ '}' :: rest
          = '"' :: (escStr k ++ ('"' :: ':' :: ' ' :: (dumpVal v ++ dumpTail tl))
              ++ '}' :: rest) := by
        simp [dumpMembers]
      rw [h1, parseJ_brace_quote, ← h2,
        parseM_dumpMembers (.jcons k v tl) f rest
          (by simp only [jvalFuel] at hf; omega)]
      rfl

/-- `parseM` inverts `dumpMembers` on a nonempty member list followed by the
    closing brace, given enough fuel. -/
theorem parseM_dumpMembers : ∀ (ms : JMembers) (fuel : Nat) (rest : List Char),
    jmemFuel ms ≤ fuel →
    parseM fuel (dumpMembers ms ++ '}' :: rest)
      = (match ms with
         | .jnil => none
         | _ => some (ms, rest))
  | .jnil, fuel, rest, _ => by
    cases fuel with
    | zero => rfl
    | succ f => rfl
  | .jcons k v tl, fuel, rest, hf => by
    cases fuel with
    | zero =>
      have := jvalFuel_pos v
      simp only [jmemFuel] at hf
      omega
    | succ f =>
      have hv1 : 1 ≤ jvalFuel v := jvalFuel_pos v
      have hklen : k.length + 1 ≤ f := by simp only [jmemFuel] at hf; omega
      have h1 : dumpMembers (.jcons k v tl) ++ '}' :: rest
          = '"' :: (escStr k ++ '"' ::
              (':' :: ' ' :: (dumpVal v ++ (dumpTail tl ++ '}' :: rest)))) := by
        simp [dumpMembers]
      rw [h1, parseM_key_colon f _ _ k (scanStr_escStr k f _ hklen)]
      rw [parseJ_dumpVal v f (dumpTail tl ++ '}' :: rest)
        (by simp only [jmemFuel] at hf; omega) (noDigitHead_dumpTail tl rest)]
      cases tl with
      | jnil => rfl
      | jcons k2 v2 tl2 =>
        have h2 : dumpTail (.jcons k2 v2 tl2) ++ '}' :: rest
            = ',' :: ' ' :: (dumpMembers (.jcons k2 v2 tl2) ++ '}' :: rest) := by
          simp [dumpTail, dumpMembers]
        rw [h2]
        show (parseM f (dumpMembers (.jcons k2 v2 tl2) ++ '}' :: rest)).map
            (fun p => (JMembers.jcons k v p.1, p.2))
          = some (.jcons k v (.jcons k2 v2 tl2), rest)
        rw [parseM_dumpMembers (.jcons k2 v2 tl2) f rest
          (by simp only [jmemFuel] at hf ⊢; omega)]
        rfl

end

/-- Escaping a character always produces at least one character. -/
theorem escChar_len (c : Char) : 1 ≤ (escChar c).length := by
  rw [escChar]
  split_ifs <;> simp

/-- Escaping never shortens a string. -/
theorem escStr_len : ∀ s : Str, s.length ≤ (escStr s).length := by
  intro s
  induction s with
  | nil => simp [escStr]
  | cons c cs ih =>
    rw [escStr, List.length_append, List.length_cons]
    have := escChar_len c
    omega

/-- A `", "`-joined tail is no shorter than the same members joined bare. -/
theorem dumpMembers_le_dumpTail : ∀ ms : JMembers,
    (dumpMembers ms).length ≤ (dumpTail ms).length := by
  intro ms
  cases ms with
  | jnil => simp [dumpMembers, dumpTail]
  | jcons k v tl => simp [dumpMembers, dumpTail]

mutual

/-- The fuel a value needs is bounded by its serialized length. -/
theorem jvalFuel_le : ∀ v : JVal, jvalFuel v ≤ (dumpVal v).length + 1
  | .jnull => by simp [jvalFuel, dumpVal]
  | .jbool true => by simp [jvalFuel, dumpVal]
  | .jbool false => by simp [jvalFuel, dumpVal]
  | .jint n => by simp [jvalFuel]
  | .jstr s => by
    have := escStr_len s
    simp only [jvalFuel, dumpVal, List.length_cons, List.length_append]
    simp
    omega
  | .jobj ms => by
    have := jmemFuel_le ms
    simp only [jvalFuel, dumpVal, List.length_cons, List.length_append]
    simp
    omega

/-- The fuel a member list needs is bounded by its serialized length. -/
theorem jmemFuel_le : ∀ ms : JMembers, jmemFuel ms ≤ (dumpMembers ms).length + 1
  | .jnil => by simp [jmemFuel, dumpMembers]
  | .jcons k v tl => by
    have hv := jvalFuel_le v
    have ht := jmemFuel_le tl
    have hd := dumpMembers_le_dumpTail tl
    have he := escStr_len k
    simp only [jmemFuel, dumpMembers, List.length_cons, List.length_append]
    omega

end

/-- The round-trip at the heart of claim C8: `json.loads` inverts
    `json.dumps` on every value this program can serialize. -/
theorem pyLoads_pyDumps (v : JVal) : pyLoads (pyDumps v) = some v := by
  have hfuel : jvalFuel v ≤ (dumpVal v).length + 1 := jvalFuel_le v
  have h := parseJ_dumpVal v ((dumpVal v).length + 1) [] hfuel rfl
  rw [List.append_nil] at h
  simp only [pyLoads, pyDumps, h]

/-! ## Handler plumbing lemmas shared by the claims -/

/-- A body that is the serialization of `v` parses back to `v`. -/
theorem parse_request_body_dump (w : World) (event : Event) (v : JVal)
    (hb : event.body = some (pyDumps v)) (h64 : event.isBase64Encoded = false) :
    parse_request_body w event = .ok v := by
  simp [parse_request_body, hb, h64, pyLoads_pyDumps]

/-- Any non-`ValueError` escaping the `try` block yields the fixed generic
    500 response. -/
theorem lambda_handler_unclassified (w : World) (event : Event) (e : PyExc)
    (h : handler_try w event = .error e) (hv : isValueError e = false) :
    lambda_handler w event = .ok internal_error_response := by
  rw [lambda_handler, h]
  cases e with
  | valueError m => simp [isValueError] at hv
  | attributeError m => rfl
  | otherError m => rfl

/-- A `ValueError` escaping the `try` block yields a 400 carrying its
    message. -/
theorem lambda_handler_valueError (w : World) (event : Event) (m : Str)
    (h : handler_try w event = .error (.valueError m)) :
    lambda_handler w event = .ok (create_response 400 (failure_payload m)) := by
  rw [lambda_handler, h]

/-- The `try` block fails with exactly the exception `validate_message`
    raises, whenever the body parses. -/
theorem handler_try_validate_error (w : World) (event : Event) (v : JVal) (e : PyExc)
    (hparse : parse_request_body w event = .ok v)
    (hval : validate_message v = .error e) :
    handler_try w event = .error e := by
  simp [handler_try, hparse, hval]

/-! ## The claims -/

/-- C1, counterexample: the claim asserts that a transport failure yields a
    `FetchFailed` value distinct from the `NotFound` value of a successful
    fetch without a security section.  In the code both paths return `None`
    (`tools.py:35` is a bare `return`, `tools.py:51` is `return None`): at
    the concrete input below, a raising transport and a 200-with-no-section
    transport produce equal outcomes, so no such distinction exists. -/
theorem C1_counterexample :
    toolFailWorld.httpGet (tool_base_url ++ pyLower "mali".data)
      = .error "connection error".data ∧
    toolNoSectionWorld.httpGet (tool_base_url ++ pyLower "mali".data)
      = .ok ⟨200, "page".data⟩ ∧
    toolNoSectionWorld.findSecurite "page".data = none ∧
    get_country_info toolFailWorld "mali".data
      = get_country_info toolNoSectionWorld "mali".data :=
  ⟨rfl, rfl, rfl, rfl⟩

/-- C1, amended: every failure path of `get_country_info` — transport
    exception, `raise_for_status` on a 4xx/5xx status, or a page without the
    security section — returns normally with the same sentinel `none`
    (the paths are distinguished only in logging, not in the returned
    value). -/
theorem C1_fetch_failure_modes : ∀ (w : ToolWorld) (c : Str),
    ((∃ e, w.httpGet (tool_base_url ++ pyLower c) = .error e) →
      get_country_info w c = none) ∧
    (∀ resp, w.httpGet (tool_base_url ++ pyLower c) = .ok resp →
      400 ≤ resp.status → resp.status < 600 →
      get_country_info w c = none) ∧
    (∀ resp, w.httpGet (tool_base_url ++ pyLower c) = .ok resp →
      ¬(400 ≤ resp.status ∧ resp.status < 600) →
      w.findSecurite resp.text = none →
      get_country_info w c = none) := by
  intro w c
  refine ⟨?_, ?_, ?_⟩
  · rintro ⟨e, he⟩
    simp [get_country_info, he]
  · intro resp hr h4 h6
    simp [get_country_info, hr, if_pos (And.intro h4 h6)]
  · intro resp hr hns hfind
    simp [get_country_info, hr, if_neg hns, hfind]

/-- C1, witness: the amended theorem applied at the two concrete tool worlds
    of the counterexample. -/
theorem C1_fetch_failure_modes_witness :
    get_country_info toolFailWorld "mali".data = none ∧
    get_country_info toolNoSectionWorld "mali".data = none :=
  ⟨(C1_fetch_failure_modes toolFailWorld "mali".data).1 ⟨"connection error".data, rfl⟩,
   (C1_fetch_failure_modes toolNoSectionWorld "mali".data).2.2 ⟨200, "page".data⟩ rfl
     (by simp) rfl⟩

/-- C2: whenever the `try` block fails with any unclassified (non-`ValueError`)
    exception, the handler returns the fixed generic response — status 500,
    `error` exactly `"Internal server error"` — and that caller-visible
    response is identical for any two such failures, so no exception detail
    ever reaches the caller. -/
theorem C2_internal_errors_uniform : ∀ (w : World) (event : Event) (e : PyExc),
    handler_try w event = .error e → isValueError e = false →
    lambda_handler w event = .ok internal_error_response ∧
    (∀ (w2 : World) (event2 : Event) (e2 : PyExc),
      handler_try w2 event2 = .error e2 → isValueError e2 = false →
      lambda_handler w event = lambda_handler w2 event2) := by
  intro w event e h hv
  refine ⟨lambda_handler_unclassified w event e h hv, ?_⟩
  intro w2 event2 e2 h2 hv2
  rw [lambda_handler_unclassified w event e h hv,
    lambda_handler_unclassified w2 event2 e2 h2 hv2]

/-- C2, witness: a world whose agent raises `.otherError "boom"` on the valid
    message `"hi"`; the handler answers with the generic 500 response. -/
theorem C2_internal_errors_uniform_witness :
    handler_try crashWorld (msgEvent "hi".data) = .error (.otherError "boom".data) ∧
    lambda_handler crashWorld (msgEvent "hi".data) = .ok internal_error_response :=
  ⟨rfl, (C2_internal_errors_uniform crashWorld (msgEvent "hi".data)
    (.otherError "boom".data) rfl rfl).1⟩

/-- C3: a request body whose `message` field is absent, or present as a
    string that strips to empty, makes `validate_message` fail with
    `ValueError "Message cannot be empty"`, and end to end the handler
    returns status 400 with exactly that error. -/
theorem C3_empty_message : ∀ ms : JMembers,
    (jGet ms "message".data = none ∨
      ∃ s, jGet ms "message".data = some (.jstr s) ∧ pyStrip s = []) →
    validate_message (.jobj ms)
      = .error (.valueError "Message cannot be empty".data) ∧
    (∀ (w : World) (event : Event),
      event.body = some (pyDumps (.jobj ms)) → event.isBase64Encoded = false →
      lambda_handler w event = .ok empty_message_response) := by
  intro ms h
  have hval : validate_message (.jobj ms)
      = .error (.valueError "Message cannot be empty".data) := by
    rcases h with h | ⟨s, hs, hstrip⟩
    · simp [validate_message, h, pyStrip]
    · simp [validate_message, hs, hstrip]
  refine ⟨hval, ?_⟩
  intro w event hb h64
  have htry := handler_try_validate_error w event (.jobj ms) _
    (parse_request_body_dump w event (.jobj ms) hb h64) hval
  exact lambda_handler_valueError w event _ htry

/-- C3, witness: the whitespace-only message `"  "`, both at the validator
    and end to end. -/
theorem C3_empty_message_witness :
    pyStrip "  ".data = [] ∧
    validate_message (.jobj (.jcons "message".data (.jstr "  ".data) .jnil))
      = .error (.valueError "Message cannot be empty".data) ∧
    lambda_handler stubWorld (msgEvent "  ".data) = .ok empty_message_response :=
  ⟨rfl,
   (C3_empty_message (.jcons "message".data (.jstr "  ".data) .jnil)
     (Or.inr ⟨"  ".data, rfl, rfl⟩)).1,
   (C3_empty_message (.jcons "message".data (.jstr "  ".data) .jnil)
     (Or.inr ⟨"  ".data, rfl, rfl⟩)).2 stubWorld (msgEvent "  ".data) rfl rfl⟩

/-- C4: a `message` string whose trimmed length exceeds 1000 makes
    `validate_message` fail with `ValueError "Message too long (max 1000
    characters)"` — a message that names the 1000-character limit — and end
    to end the handler returns status 400 carrying exactly that error; a
    trimmed length of at most 1000 passes the length check (a nonempty such
    message validates successfully). -/
theorem C4_message_too_long : ∀ (ms : JMembers) (s : Str),
    jGet ms "message".data = some (.jstr s) →
    (1000 < (pyStrip s).length →
      validate_message (.jobj ms)
        = .error (.valueError "Message too long (max 1000 characters)".data) ∧
      (∃ pre post, "Message too long (max 1000 characters)".data
        = pre ++ "1000".data ++ post) ∧
      (∀ (w : World) (event : Event),
        event.body = some (pyDumps (.jobj ms)) → event.isBase64Encoded = false →
        lambda_handler w event
          = .ok (create_response 400
              (failure_payload "Message too long (max 1000 characters)".data)))) ∧
    ((pyStrip s).length ≤ 1000 → pyStrip s ≠ [] →
      validate_message (.jobj ms) = .ok (pyStrip s)) := by
  intro ms s hget
  constructor
  · intro hlong
    have hne : pyStrip s ≠ [] := by
      intro hnil
      rw [hnil] at hlong
      simp at hlong
    have hval : validate_message (.jobj ms)
        = .error (.valueError "Message too long (max 1000 characters)".data) := by
      simp [validate_message, hget, hne, hlong]
    refine ⟨hval, ⟨"Message too long (max ".data, " characters)".data, rfl⟩, ?_⟩
    intro w event hb h64
    have htry := handler_try_validate_error w event (.jobj ms) _
      (parse_request_body_dump w event (.jobj ms) hb h64) hval
    exact lambda_handler_valueError w event _ htry
  · intro hshort hne
    simp [validate_message, hget, hne, Nat.not_lt.mpr hshort]

/-- Stripping a run of one repeated non-whitespace character is the
    identity. -/
theorem pyStrip_replicate (n : Nat) (c : Char) (h : pyIsSpace c = false) :
    pyStrip (List.replicate n c) = List.replicate n c := by
  have hdrop : ∀ m : Nat,
      List.dropWhile pyIsSpace (List.replicate m c) = List.replicate m c := by
    intro m
    cases m with
    | zero => rfl
    | succ k => simp [List.replicate_succ, List.dropWhile_cons, h]
  rw [pyStrip, hdrop, List.reverse_replicate, hdrop, List.reverse_replicate]

/-- C4, witness: a 1001-character message, both at the validator and end to
    end. -/
theorem C4_message_too_long_witness :
    1000 < (pyStrip (List.replicate 1001 'a')).length ∧
    validate_message (.jobj (.jcons "message".data (.jstr (List.replicate 1001 'a')) .jnil))
      = .error (.valueError "Message too long (max 1000 characters)".data) ∧
    lambda_handler stubWorld (msgEvent (List.replicate 1001 'a'))
      = .ok (create_response 400
          (failure_payload "Message too long (max 1000 characters)".data)) :=
  have hlong : 1000 < (pyStrip (List.replicate 1001 'a')).length := by
    rw [pyStrip_replicate 1001 'a' rfl, List.length_replicate]
    omega
  ⟨hlong,
   ((C4_message_too_long (.jcons "message".data (.jstr (List.replicate 1001 'a')) .jnil)
     (List.replicate 1001 'a') rfl).1 hlong).1,
   ((C4_message_too_long (.jcons "message".data (.jstr (List.replicate 1001 'a')) .jnil)
     (List.replicate 1001 'a') rfl).1 hlong).2.2 stubWorld
     (msgEvent (List.replicate 1001 'a')) rfl rfl⟩

/-- C5: identity extraction never fails — on any event in which the claims
    mapping is unreachable (missing `requestContext`, `authorizer`, or
    `claims`), `extract_user_info` returns exactly the documented defaults
    `{username: "Unknown", email: "unknown@example.com", sub: "unknown-sub"}`,
    and when claims are present each field is the corresponding claim,
    falling back to its default when that individual claim is missing. -/
theorem C5_extract_user_info : ∀ event : Event,
    (event_claims event = none → extract_user_info event = default_user_info) ∧
    (∀ cl, event_claims event = some cl →
      extract_user_info event
        = { username := (lookupClaim cl "cognito:username".data).getD "Unknown".data
            email := (lookupClaim cl "email".data).getD "unknown@example.com".data
            sub := (lookupClaim cl "sub".data).getD "unknown-sub".data }) := by
  intro event
  obtain ⟨b, e64, rc⟩ := event
  constructor
  · intro h
    match rc, h with
    | none, _ => rfl
    | some ⟨none⟩, _ => rfl
    | some ⟨some ⟨none⟩⟩, _ => rfl
  · intro cl h
    match rc, h with
    | some ⟨some ⟨some cl2⟩⟩, h =>
      have : cl2 = cl := by
        simpa [event_claims] using h
      subst this
      rfl

/-- C5, witness: the defaults on an event with no request context, and the
    claim lookup on an event carrying a username claim. -/
theorem C5_extract_user_info_witness :
    extract_user_info noBodyEvent = default_user_info ∧
    extract_user_info claimsEvent
      = { username := (lookupClaim demoClaims "cognito:username".data).getD "Unknown".data
          email := (lookupClaim demoClaims "email".data).getD "unknown@example.com".data
          sub := (lookupClaim demoClaims "sub".data).getD "unknown-sub".data } :=
  ⟨(C5_extract_user_info noBodyEvent).1 rfl,
   (C5_extract_user_info claimsEvent).2 demoClaims rfl⟩

/-- C6: the handler always terminates in the responding state with exactly
    one response envelope — for every world (any agent behaviour, any
    decoder behaviour) and every event, `lambda_handler` returns `.ok`;
    no exception propagates to the caller. -/
theorem C6_handler_total : ∀ (w : World) (event : Event),
    ∃ r : Response, lambda_handler w event = .ok r := by
  intro w event
  rw [lambda_handler]
  cases h : handler_try w event with
  | ok p => exact ⟨create_response p.1 p.2, rfl⟩
  | error e => cases e with
    | valueError m => exact ⟨_, rfl⟩
    | attributeError m => exact ⟨_, rfl⟩
    | otherError m => exact ⟨_, rfl⟩

/-- A successful `try` block always carries status 200 and the success
    payload built from the agent reply, the clock, and the extracted
    username. -/
theorem handler_try_ok_shape (w : World) (event : Event) (p : Int × JVal)
    (h : handler_try w event = .ok p) :
    ∃ m, p = (200, success_payload m w.now (extract_user_info event).username) := by
  simp only [handler_try] at h
  cases hp : parse_request_body w event with
  | error e => simp only [hp] at h; exact nomatch h
  | ok body =>
    simp only [hp] at h
    cases hv : validate_message body with
    | error e => simp only [hv] at h; exact nomatch h
    | ok message =>
      simp only [hv] at h
      cases ha : w.agent message with
      | error e => simp only [ha] at h; exact nomatch h
      | ok rm =>
        simp only [ha, Except.ok.injEq] at h
        exact ⟨rm, h.symm⟩

/-- C7: every body the handler produces satisfies the ChatResponse
    invariant — it deserializes to an object with a boolean `success`
    field, `message` present exactly when `success` is true (and then
    `timestamp` and `user` are present as well), and `error` present
    exactly when `success` is false. -/
theorem C7_body_invariant : ∀ (w : World) (event : Event) (r : Response),
    lambda_handler w event = .ok r →
    ∃ p, pyLoads r.body = some p ∧ chatBodyInvariant p := by
  intro w event r h
  rw [lambda_handler] at h
  cases htry : handler_try w event with
  | ok pr =>
    rw [htry] at h
    simp only [Except.ok.injEq] at h
    obtain ⟨m, hm⟩ := handler_try_ok_shape w event pr htry
    subst hm
    refine ⟨success_payload m w.now (extract_user_info event).username, ?_, ?_⟩
    · rw [← h]
      exact pyLoads_pyDumps _
    · exact ⟨_, true, rfl, rfl, rfl, rfl, fun _ => ⟨rfl, rfl⟩⟩
  | error e =>
    rw [htry] at h
    cases e with
    | valueError m =>
      simp only [Except.ok.injEq] at h
      refine ⟨failure_payload m, ?_, ?_⟩
      · rw [← h]
        exact pyLoads_pyDumps _
      · exact ⟨_, false, rfl, rfl, rfl, rfl, fun hb => nomatch hb⟩
    | attributeError m =>
      simp only [Except.ok.injEq] at h
      refine ⟨failure_payload "Internal server error".data, ?_, ?_⟩
      · rw [← h]
        exact pyLoads_pyDumps _
      · exact ⟨_, false, rfl, rfl, rfl, rfl, fun hb => nomatch hb⟩
    | otherError m =>
      simp only [Except.ok.injEq] at h
      refine ⟨failure_payload "Internal server error".data, ?_, ?_⟩
      · rw [← h]
        exact pyLoads_pyDumps _
      · exact ⟨_, false, rfl, rfl, rfl, rfl, fun hb => nomatch hb⟩

/-- C7, witness: the empty-message 400 response of a body-less event
    satisfies the invariant. -/
theorem C7_body_invariant_witness :
    ∃ p, pyLoads empty_message_response.body = some p ∧ chatBodyInvariant p :=
  C7_body_invariant stubWorld noBodyEvent empty_message_response rfl

/-- C8: for every status code and payload, `create_response` returns an
    envelope whose `statusCode` is the given code, whose headers are exactly
    the fixed CORS set (content type `application/json`, any origin, the
    fixed request-header allow-list, methods `POST,OPTIONS`), and whose body
    is the JSON serialization of the payload — and deserializing that body
    recovers the original payload. -/
theorem C8_create_response_spec : ∀ (code : Int) (payload : JVal),
    (create_response code payload).statusCode = code ∧
    (create_response code payload).headers
      = [("Content-Type".data, "application/json".data),
         ("Access-Control-Allow-Origin".data, "*".data),
         ("Access-Control-Allow-Headers".data,
          "Content-Type,X-Amz-Date,Authorization,X-Api-Key,X-Amz-Security-Token".data),
         ("Access-Control-Allow-Methods".data, "POST,OPTIONS".data)] ∧
    (create_response code payload).body = pyDumps payload ∧
    pyLoads ((create_response code payload).body) = some payload := by
  intro code payload
  exact ⟨rfl, rfl, rfl, pyLoads_pyDumps payload⟩

/-- C9: a body whose `message` field is present but not a string makes
    `validate_message` raise `AttributeError` (no `.strip` on the value),
    which the handler does not classify as a validation error: end to end it
    answers with the generic 500 `"Internal server error"` response, not a
    400. -/
theorem C9_non_string_message : ∀ (ms : JMembers) (v : JVal),
    jGet ms "message".data = some v → (∀ s, v ≠ .jstr s) →
    (∃ m, validate_message (.jobj ms) = .error (.attributeError m)) ∧
    (∀ (w : World) (event : Event),
      event.body = some (pyDumps (.jobj ms)) → event.isBase64Encoded = false →
      lambda_handler w event = .ok internal_error_response) := by
  intro ms v hget hnstr
  have hval : validate_message (.jobj ms)
      = .error (.attributeError "object has no attribute strip".data) := by
    simp only [validate_message, hget, Option.getD_some]
  refine ⟨⟨"object has no attribute strip".data, hval⟩, ?_⟩
  intro w event hb h64
  have htry := handler_try_validate_error w event (.jobj ms) _
    (parse_request_body_dump w event (.jobj ms) hb h64) hval
  exact lambda_handler_unclassified w event _ htry rfl

/-- C9, witness: the body `{"message": 5}` end to end. -/
theorem C9_non_string_message_witness :
    (∃ m, validate_message (.jobj (.jcons "message".data (.jint 5) .jnil))
      = .error (.attributeError m)) ∧
    lambda_handler stubWorld intMsgEvent = .ok internal_error_response :=
  ⟨(C9_non_string_message (.jcons "message".data (.jint 5) .jnil) (.jint 5)
      rfl (fun _ h => nomatch h)).1,
   (C9_non_string_message (.jcons "message".data (.jint 5) .jnil) (.jint 5)
      rfl (fun _ h => nomatch h)).2 stubWorld intMsgEvent rfl rfl⟩

/-- C10: an event with no `body` field at all defaults to the string
    `"{}"`, which parses to the empty object, so the handler treats the
    request as an empty message — status 400, `error` exactly
    `"Message cannot be empty"` — rather than as malformed input. -/
theorem C10_missing_body : ∀ (w : World) (event : Event),
    event.body = none → event.isBase64Encoded = false →
    parse_request_body w event = .ok (.jobj .jnil) ∧
    lambda_handler w event = .ok empty_message_response := by
  intro w event hb h64
  have hparse : parse_request_body w event = .ok (.jobj .jnil) := by
    simp only [parse_request_body, hb, h64, Option.getD_none, Bool.false_eq_true,
      if_false]
    rfl
  refine ⟨hparse, ?_⟩
  have hval : validate_message (.jobj .jnil)
      = .error (.valueError "Message cannot be empty".data) := rfl
  have htry := handler_try_validate_error w event (.jobj .jnil) _ hparse hval
  exact lambda_handler_valueError w event _ htry

/-- C10, witness: the body-less event end to end. -/
theorem C10_missing_body_witness :
    parse_request_body stubWorld noBodyEvent = .ok (.jobj .jnil) ∧
    lambda_handler stubWorld noBodyEvent = .ok empty_message_response :=
  C10_missing_body stubWorld noBodyEvent rfl rfl
